import Mathlib

/-!
Verification of the dynamic work-order system (data-center incident tickets
turned into trackable work orders).

The development shallowly embeds:
* the work-order lifecycle state machine (`complete`, `update_step`, `add_note`)
  and the work-order generator, modelled from the spec because the backend
  service code is not part of the available sources;
* the `VectorIndex.search` ranking contract and the `PriorityQueue.rank`
  scoring/ordering contract, likewise modelled from the spec;
* the frontend logic that is present in the sources: `handleResponse`
  (`api.js`), the queue partition `openOrders`/`completedOrders` and the
  local step/note state updates (`App.jsx`), the complete-button guard and the
  note-form guard (`DetailPanel.jsx`), and the pure text helpers
  `formatWorkOrderToText` / `extractLocationDetails` (`formatters.js`).
-/

namespace DWOS

/-- Work-order lifecycle status, spec §3: `enum{Queued, InProgress, Completed}`. -/
inductive WStatus
  | Queued
  | InProgress
  | Completed
deriving DecidableEq, Repr

/-- Step status, spec §3: `enum{pending, done}`. -/
inductive StepStatus
  | pending
  | done
deriving DecidableEq, Repr

/-- Step, spec §3: `{index, description, status}`; the index is the position in
the work order's step list. -/
structure Step where
  description : String
  status : StepStatus
deriving DecidableEq, Repr

/-- Note, spec §3: `{author, text, timestamp}`, append-only. -/
structure Note where
  author : String
  text : String
  timestamp : String
deriving DecidableEq, Repr

/-- WorkOrder, spec §3. Scores are modelled over `ℚ` instead of IEEE floats;
none of the verified properties depends on rounding. -/
structure WorkOrder where
  issue_id : String
  key : String
  title : String
  impact : String
  steps : List Step
  materials : List String
  validation : List String
  notes : List Note
  status : WStatus
  missing_fields : List String
  score : ℚ
deriving DecidableEq, Repr

/-- Error taxonomy, spec §7. -/
inductive WErr
  | InvalidTransition
  | IndexOutOfRange
  | InvalidArgument
  | InvalidConfiguration
deriving DecidableEq, Repr

/-- Modelled from the spec: the system note appended by `complete` when a
resolution comment is supplied (spec §4.7); the backend store code is not in
the available sources. -/
def systemNote (c : String) (ts : String) : Note :=
  { author := "System", text := c, timestamp := ts }

/-- Modelled from the spec: `complete(resolution_comment?)` (spec §4.7):
`InProgress|Queued → Completed`; appends a system note if a comment is
supplied; fails with `InvalidTransition` if already `Completed`. The backend
store code is not in the available sources. -/
def complete (comment : Option String) (ts : String) (w : WorkOrder) :
    Except WErr WorkOrder :=
  if w.status = WStatus.Completed then
    Except.error WErr.InvalidTransition
  else
    Except.ok { w with
      status := WStatus.Completed
      notes := w.notes ++ (match comment with
        | some c => [systemNote c ts]
        | none => []) }

/-- Modelled from the spec: `update_step(index, status)` (spec §4.7): an out of
bounds `index` fails with `IndexOutOfRange`; in a terminal state the lifecycle
violation is rejected with `InvalidTransition`; otherwise only the addressed
step's status changes, and the overall work-order status is never touched. The
backend store code is not in the available sources. -/
def update_step (index : Int) (st : StepStatus) (w : WorkOrder) :
    Except WErr WorkOrder :=
  if index < 0 ∨ (w.steps.length : Int) ≤ index then
    Except.error WErr.IndexOutOfRange
  else if w.status = WStatus.Completed then
    Except.error WErr.InvalidTransition
  else
    Except.ok { w with
      steps := w.steps.set index.toNat
        (match w.steps[index.toNat]? with
          | some s => { s with status := st }
          | none => { description := "", status := st }) }

/-- Modelled from the spec: `add_note(author, text)` (spec §4.7): appends,
never fails except on empty text (`InvalidArgument`). The backend store code
is not in the available sources. -/
def add_note (author : String) (text : String) (ts : String) (w : WorkOrder) :
    Except WErr WorkOrder :=
  if text = "" then
    Except.error WErr.InvalidArgument
  else
    Except.ok { w with notes := w.notes ++ [{ author := author, text := text, timestamp := ts }] }

/-- Ticket, spec §3: externally owned, read-only. The three generation-required
fields are modelled as `Option` so that an absent field is `none`. `updated_at`
is an epoch instant in abstract time units. -/
structure Ticket where
  issue_id : String
  key : String
  summary : Option String
  description : Option String
  priority : Option String
  status : String
  assignee : String
  updated_at : ℕ
deriving DecidableEq, Repr

/-- Modelled from the spec: required fields for downstream generation are
summary, description, priority (spec §3); the validator collects the
required-but-absent ones (spec §4.5 step 1). -/
def requiredMissing (t : Ticket) : List String :=
  (if t.summary = none then ["summary"] else []) ++
    (if t.description = none then ["description"] else []) ++
      (if t.priority = none then ["priority"] else [])

/-- Outcome of work-order generation, spec §4.5:
`generate(ticket, operator_notes) -> WorkOrder | MissingFieldsResult`. -/
inductive GenOutcome
  | missing (fields : List String)
  | created (w : WorkOrder)
deriving DecidableEq, Repr

/-- Modelled from the spec: `WorkOrderGenerator.generate` (spec §4.5). The
retrieval-and-generation stage (steps 2-3) is abstracted as the function
argument `gen`; on missing required fields the generator returns
`MissingFieldsResult` without invoking generation and without touching the
store; otherwise the generated order starts `Queued` with empty notes and is
inserted keyed by `issue_id`. The backend generator code is not in the
available sources. -/
def generate (gen : Ticket → WorkOrder) (t : Ticket)
    (store : List (String × WorkOrder)) :
    GenOutcome × List (String × WorkOrder) :=
  let miss := requiredMissing t
  if miss.isEmpty then
    let w := { gen t with status := WStatus.Queued, notes := [] }
    (GenOutcome.created w, (t.issue_id, w) :: store)
  else
    (GenOutcome.missing miss, store)

end DWOS

namespace DWOS

/-- The fields of a work-order row used by the dashboard queue views
(`App.jsx`). -/
structure FrontOrder where
  key : String
  priority : String
  completed : Bool
deriving DecidableEq, Repr

/-- From `App.jsx` line 359: `orders.filter((o) => !o.completed)`. -/
def openOrders (orders : List FrontOrder) : List FrontOrder :=
  orders.filter fun o => !o.completed

/-- From `App.jsx` line 360: `orders.filter((o) => o.completed)`. -/
def completedOrders (orders : List FrontOrder) : List FrontOrder :=
  orders.filter fun o => o.completed

/-- The work-order detail object held in frontend state (`App.jsx`,
`DetailPanel.jsx`). -/
structure DetailOrder where
  completed : Bool
  steps : List Step
  notes : List Note
deriving DecidableEq, Repr

/-- From `DetailPanel.jsx` line 165: the complete button carries
`disabled=(order.completed)`. -/
def completeDisabled (o : DetailOrder) : Bool :=
  o.completed

/-- From `DetailPanel.jsx` lines 39-44 (`handleSubmitNote`): the note form
submits the trimmed text only when it is non-empty, otherwise nothing is
submitted. -/
def submitNoteText (noteText : String) : Option String :=
  if noteText.trim = "" then none else some noteText.trim

/-- From `App.jsx` lines 289-301 (`handleStepUpdate` state update): the local
steps array is rebuilt with
`prev.steps.map((item, idx) => (idx === index ? nextStep : item))`. -/
def handleStepUpdateSteps (steps : List Step) (index : ℕ) (next : Step) :
    List Step :=
  steps.enum.map fun p => if p.1 = index then next else p.2

/-- From `App.jsx` lines 303-314 (`handleAddNote` state update): the local
notes array is rebuilt as `[...(prev.notes || []), resp.entry]`. -/
def handleAddNoteNotes (notes : List Note) (entry : Note) : List Note :=
  notes ++ [entry]

/-- Chunk, spec §3: `{id, document_id, text, page_number, embedding}` plus the
source name carried into references. Embeddings are modelled over `ℚ`. -/
structure Chunk where
  id : ℕ
  document_id : String
  source_name : String
  text : String
  page_number : ℕ
  embedding : List ℚ
deriving DecidableEq, Repr

/-- VectorIndex, spec §3: an ordered sequence of chunks plus the embedding
dimension. -/
structure VectorIndex where
  chunks : List Chunk
  dimension : ℕ
deriving DecidableEq, Repr

/-- Modelled from the spec: the similarity measure of `search` (spec §4.3
allows cosine similarity "or equivalent normalized inner product"); the inner
product is used, since normalization does not change any of the ordering
properties verified here. -/
def dot (a b : List ℚ) : ℚ :=
  ((a.zip b).map fun p => p.1 * p.2).sum

/-- A search result: a chunk together with its original insertion position in
the index and its similarity score. -/
structure Scored where
  chunk : Chunk
  pos : ℕ
  score : ℚ
deriving DecidableEq, Repr

/-- The ranking order of `search` results, spec §3/§4.3: descending
similarity, ties broken by original insertion order. -/
def scoredBefore (a b : Scored) : Prop :=
  b.score < a.score ∨ (a.score = b.score ∧ a.pos ≤ b.pos)

instance : DecidableRel scoredBefore := fun a b => by
  dsimp [scoredBefore]; infer_instance

instance : IsTotal Scored scoredBefore := by
  constructor
  intro a b
  dsimp [scoredBefore]
  rcases lt_trichotomy a.score b.score with h | h | h
  · exact Or.inr (Or.inl h)
  · rcases Nat.le_total a.pos b.pos with hp | hp
    · exact Or.inl (Or.inr ⟨h, hp⟩)
    · exact Or.inr (Or.inr ⟨h.symm, hp⟩)
  · exact Or.inl (Or.inl h)

instance : IsTrans Scored scoredBefore := by
  constructor
  intro a b c hab hbc
  dsimp [scoredBefore] at *
  rcases hab with h1 | ⟨h1, p1⟩
  · rcases hbc with h2 | ⟨h2, p2⟩
    · exact Or.inl (h2.trans h1)
    · exact Or.inl (h2 ▸ h1)
  · rcases hbc with h2 | ⟨h2, p2⟩
    · exact Or.inl (h1 ▸ h2)
    · exact Or.inr ⟨h1.trans h2, p1.trans p2⟩

/-- Modelled from the spec: `VectorIndex.search(query_vector, top_k)`
(spec §4.3): `top_k ≤ 0` fails with `InvalidArgument`; otherwise returns up to
`top_k` chunks ranked by descending similarity, ties broken by original
insertion order; an empty index yields an empty sequence. The backend index
code is not in the available sources. -/
def search (idx : VectorIndex) (q : List ℚ) (top_k : Int) :
    Except WErr (List Scored) :=
  if top_k ≤ 0 then
    Except.error WErr.InvalidArgument
  else
    Except.ok
      (((idx.chunks.enum.map fun p =>
            Scored.mk p.2 p.1 (dot q p.2.embedding)).insertionSort
          scoredBefore).take top_k.toNat)

/-- Modelled from the spec: the ordinal priority mapping of the queue score
(spec §4.6, "e.g. Highest=5…Low=1"; Critical and Blocker sit at the top of
the Jira-style scale used throughout the frontend). -/
def priorityLevel (p : String) : ℤ :=
  if p = "Highest" ∨ p = "Critical" ∨ p = "Blocker" then 5
  else if p = "High" then 4
  else if p = "Medium" then 3
  else if p = "Low" then 2
  else if p = "Lowest" then 1
  else 0

/-- Modelled from the spec: the cap on the age contribution to the queue score
(spec §4.6, "age since `updated_at` (monotonically increasing contribution,
capped)"). -/
def ageCap : ℕ := 5

/-- Age of a ticket at the time of a queue read, in abstract time units. -/
def ageOf (now : ℕ) (t : Ticket) : ℕ :=
  now - t.updated_at

/-- Modelled from the spec: the status visibility boost of the queue score
(spec §4.6, "a penalty/boost for `status` (e.g., Waiting Parts boosts
visibility)"). -/
def statusBoost (s : String) : ℤ :=
  if s = "Waiting Parts" then 2 else 0

/-- Modelled from the spec: the queue score (spec §4.6), a weighted sum of
priority level, capped age and status boost; the priority weight dominates the
bounded age and status terms, as the spec's priority-ordering property
requires. -/
def ticketScore (now : ℕ) (t : Ticket) : ℤ :=
  10 * priorityLevel (t.priority.getD "") + (min (ageOf now t) ageCap : ℕ) +
    statusBoost t.status

/-- PriorityQueueEntry, spec §3: a derived view of a ticket with its score
(the read-time age is carried alongside for the tie-break). -/
structure QEntry where
  ticket : Ticket
  age : ℕ
  score : ℤ
deriving DecidableEq, Repr

/-- The queue ordering, spec §4.6: descending score, ties broken by age (older
first) and then by `issue_id`. -/
def entryBefore (a b : QEntry) : Prop :=
  b.score < a.score ∨
    (a.score = b.score ∧
      (b.age < a.age ∨ (a.age = b.age ∧ a.ticket.issue_id ≤ b.ticket.issue_id)))

instance : DecidableRel entryBefore := fun a b => by
  dsimp [entryBefore]; infer_instance

instance : IsTotal QEntry entryBefore := by
  constructor
  intro a b
  dsimp [entryBefore]
  rcases lt_trichotomy a.score b.score with h | h | h
  · exact Or.inr (Or.inl h)
  · rcases lt_trichotomy a.age b.age with ha | ha | ha
    · exact Or.inr (Or.inr ⟨h.symm, Or.inl ha⟩)
    · rcases le_total a.ticket.issue_id b.ticket.issue_id with hi | hi
      · exact Or.inl (Or.inr ⟨h, Or.inr ⟨ha, hi⟩⟩)
      · exact Or.inr (Or.inr ⟨h.symm, Or.inr ⟨ha.symm, hi⟩⟩)
    · exact Or.inl (Or.inr ⟨h, Or.inl ha⟩)
  · exact Or.inl (Or.inl h)

instance : IsTrans QEntry entryBefore := by
  constructor
  intro a b c hab hbc
  dsimp [entryBefore] at *
  rcases hab with h1 | ⟨h1, t1⟩
  · rcases hbc with h2 | ⟨h2, t2⟩
    · exact Or.inl (h2.trans h1)
    · exact Or.inl (h2 ▸ h1)
  · rcases hbc with h2 | ⟨h2, t2⟩
    · exact Or.inl (h1 ▸ h2)
    · refine Or.inr ⟨h1.trans h2, ?_⟩
      rcases t1 with a1 | ⟨a1, i1⟩
      · rcases t2 with a2 | ⟨a2, i2⟩
        · exact Or.inl (a2.trans a1)
        · exact Or.inl (a2 ▸ a1)
      · rcases t2 with a2 | ⟨a2, i2⟩
        · exact Or.inl (a1 ▸ a2)
        · exact Or.inr ⟨a1.trans a2, i1.trans i2⟩

/-- Modelled from the spec: whether a ticket's work order is `Completed`, used
to exclude it from the active queue (spec §4.6). -/
def isCompletedFor (work_orders : List WorkOrder) (id : String) : Bool :=
  work_orders.any fun w => decide (w.issue_id = id ∧ w.status = WStatus.Completed)

/-- Modelled from the spec: `PriorityQueue.rank(tickets, work_orders)`
(spec §4.6): score every ticket whose work order is not completed, then order
by descending score with ties broken by age (older first) and `issue_id`. The
backend queue code is not in the available sources. -/
def rank (now : ℕ) (tickets : List Ticket) (work_orders : List WorkOrder) :
    List QEntry :=
  ((tickets.filter fun t => !(isCompletedFor work_orders t.issue_id)).map
      fun t => QEntry.mk t (ageOf now t) (ticketScore now t)).insertionSort
    entryBefore

/-- The parsed JSON body of an HTTP response, as far as `handleResponse`
inspects it: an optional `detail` field. -/
structure RespBody where
  detail : Option String
deriving DecidableEq, Repr

/-- An HTTP response as observed by `handleResponse` (`api.js`): the `ok`
flag, the status text, and the result of `response.json()` (`none` when the
body does not parse as JSON). -/
structure HttpResponse where
  ok : Bool
  statusText : String
  json : Option RespBody
deriving DecidableEq, Repr

/-- The observable outcome of `handleResponse`: the parsed body, a thrown
`Error(message)`, or the propagated parse exception of an `ok` response whose
body is not JSON. -/
inductive FetchOutcome
  | success (body : RespBody)
  | thrown (message : String)
  | parseFailure
deriving DecidableEq, Repr

/-- JavaScript's string coalescing `a || b`: the left operand unless it is
absent or the empty string (both falsy). -/
def jsOr (a : Option String) (b : String) : String :=
  match a with
  | some s => if s = "" then b else s
  | none => b

/-- From `api.js` lines 5-12: on a non-`ok` response the thrown message is
`detail?.detail || response.statusText || "Unknown error"`, where `detail` is
the parsed body or `{}` when parsing fails; on an `ok` response the parsed
body is returned. -/
def handleResponse (r : HttpResponse) : FetchOutcome :=
  if r.ok then
    match r.json with
    | some b => FetchOutcome.success b
    | none => FetchOutcome.parseFailure
  else
    let detail := r.json.getD { detail := none }
    FetchOutcome.thrown (jsOr detail.detail (jsOr (some r.statusText) "Unknown error"))

/-- A generated work-order JSON object, as far as `formatWorkOrderToText`
(`formatters.js`) inspects it. String fields are `Option` so that an absent
field is `none`; the list fields model the `Array.isArray` guards' results. -/
structure WorkJson where
  title : Option String
  impact : Option String
  steps : List String
  materials : List String
  validation : List String
  jira_refs : List String
deriving DecidableEq, Repr

/-- A JavaScript value as classified by `formatWorkOrderToText` and
`extractLocationDetails`: a string, a (truthy) object, null/undefined, or any
other primitive. -/
inductive JsInput
  | strVal (s : String)
  | objVal (w : WorkJson)
  | nullish
  | otherVal
deriving DecidableEq, Repr

/-- From `formatters.js` lines 1-33 (`formatWorkOrderToText`): the `lines`
array built for a work-order object. -/
def formatLines (w : WorkJson) : List String :=
  let title := jsOr w.title "Work Order"
  let impact := jsOr w.impact ""
  ("Title: " ++ title) ::
    ((if impact = "" then [] else ["Impact: " ++ impact]) ++
      (if w.steps.isEmpty then [] else
        "\nSteps:" :: (w.steps.enum.map fun p => toString (p.1 + 1) ++ ". " ++ p.2)) ++
      (if w.materials.isEmpty then [] else
        "\nMaterials:" :: (w.materials.map fun m => "- " ++ m)) ++
      (if w.validation.isEmpty then [] else
        "\nValidation:" :: (w.validation.map fun v => "- " ++ v)) ++
      (if w.jira_refs.isEmpty then [] else
        ["\nJira References:", String.intercalate ", " w.jira_refs]))

/-- From `formatters.js` lines 1-33: a non-object input yields itself when it
is a string and the placeholder otherwise (null, though of object type in
JavaScript, is falsy and takes the same early return); an object input yields
the joined `lines`. -/
def formatWorkOrderToText (input : JsInput) : String :=
  match input with
  | JsInput.strVal s => s
  | JsInput.objVal w => String.intercalate "\n" (formatLines w)
  | JsInput.nullish => "(No work order content)"
  | JsInput.otherVal => "(No work order content)"

/-- The structured location object produced by `extractLocationDetails`; a
field is `none` when the source leaves the property unset. -/
structure LocationDetails where
  rack : Option String
  server : Option String
  node : Option String
  gpu : Option String
  freeform : Option String
deriving DecidableEq, Repr

/-- The empty location object `{}`. -/
def emptyLocation : LocationDetails :=
  { rack := none, server := none, node := none, gpu := none, freeform := none }

/-- JavaScript falsiness of a possibly-unset string property: unset or the
empty string. -/
def jsFalsy (a : Option String) : Bool :=
  match a with
  | none => true
  | some s => s == ""

/-- From `formatters.js` lines 57-86 (`extractLocationDetails`): a non-string
or empty-string input returns `{}`; otherwise the lowercased text is matched
against the rack/server/node/gpu patterns and the explicit `location:` label.
The five regular-expression matchers are passed as functions returning the
first capture group (`none` when the pattern does not match); the rack capture
is uppercased as in the source, and `freeform` is set to the trimmed explicit
location only when all four structured properties are falsy. -/
def extractLocationDetails
    (rackRe serverRe nodeRe gpuRe locRe : String → Option String)
    (input : JsInput) : LocationDetails :=
  match input with
  | JsInput.strVal s =>
    if s = "" then emptyLocation
    else
      let text := s.toLower
      let rack := (rackRe text).map fun m => m.toUpper
      let server := serverRe text
      let node := nodeRe text
      let gpu := gpuRe text
      let explicitLoc := locRe text
      { rack := rack, server := server, node := node, gpu := gpu,
        freeform :=
          match explicitLoc with
          | some l =>
            if jsFalsy rack && jsFalsy server && jsFalsy node && jsFalsy gpu then
              some l.trim
            else none
          | none => none }
  | _ => emptyLocation

/-! Sample data used by the witnesses. -/

/-- Sample step list of a three-step work order. -/
def sampleSteps : List Step :=
  [{ description := "check sensors", status := StepStatus.pending },
   { description := "swap loop kit", status := StepStatus.pending },
   { description := "validate", status := StepStatus.done }]

/-- Sample queued work order. -/
def sampleOrder : WorkOrder :=
  { issue_id := "10029", key := "DWOS-118", title := "GPU thermal excursion",
    impact := "rack A12", steps := sampleSteps, materials := [],
    validation := [], notes := [{ author := "Tech", text := "fans cleaned", timestamp := "t1" }],
    status := WStatus.Queued, missing_fields := [], score := 0 }

/-- Sample completed work order. -/
def sampleCompleted : WorkOrder :=
  { sampleOrder with status := WStatus.Completed }

/-- Sample low-priority, old ticket. -/
def lowTicket : Ticket :=
  { issue_id := "10010", key := "DWOS-110", summary := some "Rack power audit",
    description := some "cluster 9", priority := some "Low", status := "To Do",
    assignee := "K. Jordan", updated_at := 0 }

/-- Sample critical-priority, fresh ticket. -/
def critTicket : Ticket :=
  { issue_id := "10020", key := "DWOS-118", summary := some "GPU thermal excursion",
    description := some "GPU 4 rack A12", priority := some "Critical", status := "To Do",
    assignee := "R. Patel", updated_at := 100 }

/-- Sample ticket whose description is absent while summary and priority are
present. -/
def noDescTicket : Ticket :=
  { issue_id := "10030", key := "DWOS-120", summary := some "Switch fabric packet loss",
    description := none, priority := some "High", status := "To Do",
    assignee := "L. Chen", updated_at := 50 }

/-- Sample chunk constructor for the index samples. -/
def sampleChunk (i : ℕ) (e : List ℚ) : Chunk :=
  { id := i, document_id := "doc1", source_name := "manual.pdf", text := "text",
    page_number := i, embedding := e }

/-- Sample three-chunk index with a score tie between the last two chunks. -/
def sampleIndex : VectorIndex :=
  { chunks := [sampleChunk 0 [1], sampleChunk 1 [2], sampleChunk 2 [2]], dimension := 1 }

/-- Concrete output of the sample search used by the witness of C4: the two
tied chunks in insertion order. -/
def sampleSearchOut : List Scored :=
  [{ chunk := sampleChunk 1 [2], pos := 1, score := 2 },
   { chunk := sampleChunk 2 [2], pos := 2, score := 2 }]

/-- The error-body detail field as `handleResponse` reads it:
`(await response.json().catch(() => ({})))?.detail`. -/
def errDetail (r : HttpResponse) : Option String :=
  (r.json.getD { detail := none }).detail

/-- Sample work-order JSON object used by the witness of C9. -/
def sampleJson : WorkJson :=
  { title := some "Replace loop kit", impact := some "rack A12",
    steps := ["drain loop", "swap kit"], materials := ["kit rev B"],
    validation := ["pressure at 1.0 bar"], jira_refs := ["DWOS-118"] }

/-- A matcher that never matches, used by the witness of C10. -/
def reNone : String → Option String :=
  fun _ => none

/-- A sample explicit-location matcher used by the witness of C10. -/
def locSample : String → Option String :=
  fun t => if t = "location: bay 4" then some " bay 4 " else none

end DWOS

namespace DWOS

/-! Claim theorems. -/

/-- C1: for every work order whose status is already Completed, a second call
to the complete operation fails with InvalidTransition (hence produces no
updated work order, so the state remains Completed with no field changed), and
the frontend disables the Complete action exactly when the order's completed
flag is true. -/
theorem complete_terminal_invalid (w : WorkOrder) (c : Option String) (ts : String)
    (h : w.status = WStatus.Completed) :
    complete c ts w = Except.error WErr.InvalidTransition ∧
      (∀ w', complete c ts w ≠ Except.ok w') ∧
      (∀ o : DetailOrder, completeDisabled o = o.completed) := by
  refine ⟨?_, ?_, fun o => rfl⟩
  · simp [complete, h]
  · intro w' hw
    simp [complete, h] at hw

/-- Witness for C1 at a concrete completed work order. -/
theorem complete_terminal_invalid_witness :
    complete (some "resolved") "t2" sampleCompleted = Except.error WErr.InvalidTransition ∧
      completeDisabled { completed := true, steps := [], notes := [] } = true :=
  ⟨(complete_terminal_invalid sampleCompleted (some "resolved") "t2" rfl).1,
   (complete_terminal_invalid sampleCompleted (some "resolved") "t2" rfl).2.2
     { completed := true, steps := [], notes := [] }⟩

/-- C3: for a ticket whose description is absent while the other required
fields are present, work-order generation returns a missing-fields outcome of
exactly the description field, leaves the store untouched, and never invokes
the generation stage (the outcome is independent of the generation function). -/
theorem generate_missing_description (t : Ticket) (gen : Ticket → WorkOrder)
    (store : List (String × WorkOrder))
    (hd : t.description = none) (hs : t.summary ≠ none) (hp : t.priority ≠ none) :
    generate gen t store = (GenOutcome.missing ["description"], store) ∧
      (∀ gen', generate gen t store = generate gen' t store) := by
  have hm : requiredMissing t = ["description"] := by
    simp [requiredMissing, hd, hs, hp]
  constructor
  · simp [generate, hm]
  · intro gen'
    simp [generate, hm]

/-- Witness for C3 at a concrete ticket missing only the description. -/
theorem generate_missing_description_witness :
    generate (fun _ => sampleOrder) noDescTicket [] =
        (GenOutcome.missing ["description"], []) ∧
      (∀ gen', generate (fun _ => sampleOrder) noDescTicket [] = generate gen' noDescTicket []) :=
  generate_missing_description noDescTicket (fun _ => sampleOrder) []
    rfl (by simp [noDescTicket]) (by simp [noDescTicket])

/-- C6: add_note with non-empty text appends exactly one note at the end of
the notes sequence, leaves every previously existing note (and the rest of the
work order) unchanged, and fails only when the text is empty, with
InvalidArgument. -/
theorem add_note_contract (w : WorkOrder) (author text ts : String) :
    (text ≠ "" → ∀ w', add_note author text ts w = Except.ok w' →
        w'.notes.length = w.notes.length + 1 ∧
          w'.notes.take w.notes.length = w.notes ∧
          w'.notes[w.notes.length]? = some { author := author, text := text, timestamp := ts } ∧
          w'.status = w.status ∧ w'.steps = w.steps) ∧
      (text ≠ "" → add_note author text ts w =
        Except.ok { w with notes := w.notes ++ [{ author := author, text := text, timestamp := ts }] }) ∧
      (text = "" → add_note author text ts w = Except.error WErr.InvalidArgument) := by
  refine ⟨?_, ?_, ?_⟩
  · intro h w' hw
    simp only [add_note, if_neg h, Except.ok.injEq] at hw
    subst hw
    refine ⟨by simp, by simp, ?_, rfl, rfl⟩
    simp [List.getElem?_append_right]
  · intro h
    simp [add_note, h]
  · intro h
    simp [add_note, h]

/-- Witness for C6 at a concrete work order and note. -/
theorem add_note_contract_witness :
    (add_note "Tech" "loop flushed" "t3" sampleOrder =
        Except.ok { sampleOrder with
          notes := sampleOrder.notes ++ [{ author := "Tech", text := "loop flushed", timestamp := "t3" }] }) ∧
      add_note "Tech" "" "t3" sampleOrder = Except.error WErr.InvalidArgument :=
  ⟨(add_note_contract sampleOrder "Tech" "loop flushed" "t3").2.1 (by decide),
   (add_note_contract sampleOrder "Tech" "" "t3").2.2 rfl⟩

/-- C7: the active queue view contains exactly the orders whose completed flag
is false and the completed view exactly those whose flag is true, each
preserving the original relative order (sublists of the input), and together
they account for every order. -/
theorem queue_partition (orders : List FrontOrder) :
    (∀ o, o ∈ openOrders orders ↔ o ∈ orders ∧ o.completed = false) ∧
      (∀ o, o ∈ completedOrders orders ↔ o ∈ orders ∧ o.completed = true) ∧
      List.Sublist (openOrders orders) orders ∧
      List.Sublist (completedOrders orders) orders ∧
      (openOrders orders).length + (completedOrders orders).length = orders.length := by
  refine ⟨?_, ?_, List.filter_sublist _, List.filter_sublist _, ?_⟩
  · intro o
    simp [openOrders, List.mem_filter]
  · intro o
    simp [completedOrders, List.mem_filter]
  · induction orders with
    | nil => rfl
    | cons o rest ih =>
      cases hc : o.completed <;>
        simp [openOrders, completedOrders, List.filter, hc] at ih ⊢ <;> omega

end DWOS

namespace DWOS

/-- C2: update_step with an index outside 0..n-1 fails with IndexOutOfRange;
whenever it succeeds, the step sequence keeps its length, every step other
than the addressed one is unchanged, and the addressed step keeps its
description with only its status replaced; the frontend state update likewise
replaces only the addressed position and leaves every other step identical. -/
theorem update_step_bounds (w : WorkOrder) (index : Int) (st : StepStatus) :
    ((index < 0 ∨ (w.steps.length : Int) ≤ index) →
        update_step index st w = Except.error WErr.IndexOutOfRange) ∧
      (∀ w', update_step index st w = Except.ok w' →
        w'.steps.length = w.steps.length ∧
          (∀ j : ℕ, (j : Int) ≠ index → w'.steps[j]? = w.steps[j]?) ∧
          (∀ hi : index.toNat < w.steps.length,
            w'.steps[index.toNat]? =
              some { w.steps.get ⟨index.toNat, hi⟩ with status := st })) ∧
      (∀ (steps : List Step) (i : ℕ) (next : Step) (j : ℕ), j ≠ i →
        (handleStepUpdateSteps steps i next)[j]? = steps[j]?) ∧
      (∀ (steps : List Step) (i : ℕ) (next : Step), i < steps.length →
        (handleStepUpdateSteps steps i next)[i]? = some next) := by
  refine ⟨?_, ?_, ?_, ?_⟩
  · intro h
    simp only [update_step, if_pos h]
  · intro w' hw
    by_cases h1 : index < 0 ∨ (w.steps.length : Int) ≤ index
    · simp [update_step, h1] at hw
    · by_cases h2 : w.status = WStatus.Completed
      · simp [update_step, h1, h2] at hw
      · simp only [update_step, if_neg h1, if_neg h2, Except.ok.injEq] at hw
        subst hw
        push_neg at h1
        refine ⟨by simp, ?_, ?_⟩
        · intro j hj
          have hne : index.toNat ≠ j := by omega
          simp [List.getElem?_set, hne]
        · intro hi
          rw [show w.steps.get ⟨index.toNat, hi⟩ = w.steps[index.toNat] from rfl]
          simp [List.getElem?_set, hi, List.getElem?_eq_getElem hi]
  · intro steps i next j hj
    simp only [handleStepUpdateSteps, List.getElem?_map, List.getElem?_enum]
    cases hs : steps[j]? with
    | none => rfl
    | some a => simp [hj]
  · intro steps i next hi
    simp only [handleStepUpdateSteps, List.getElem?_map, List.getElem?_enum,
      List.getElem?_eq_getElem hi]
    simp

/-- Witness for C2 at a three-step work order and index 5, plus the frontend
update at index 1 of the same steps. -/
theorem update_step_bounds_witness :
    update_step 5 StepStatus.done sampleOrder = Except.error WErr.IndexOutOfRange ∧
      (handleStepUpdateSteps sampleSteps 1
          { description := "swap loop kit", status := StepStatus.done })[0]? =
        sampleSteps[0]? ∧
      (handleStepUpdateSteps sampleSteps 1
          { description := "swap loop kit", status := StepStatus.done })[1]? =
        some { description := "swap loop kit", status := StepStatus.done } :=
  ⟨(update_step_bounds sampleOrder 5 StepStatus.done).1
      (Or.inr (by norm_num [sampleOrder, sampleSteps])),
   (update_step_bounds sampleOrder 5 StepStatus.done).2.2.1 sampleSteps 1
      { description := "swap loop kit", status := StepStatus.done } 0 (by decide),
   (update_step_bounds sampleOrder 5 StepStatus.done).2.2.2 sampleSteps 1
      { description := "swap loop kit", status := StepStatus.done } (by decide)⟩

end DWOS

namespace DWOS

/-- C4: search returns at most top_k results ordered by non-increasing
similarity score with ties broken by original insertion position; searching an
empty index with a valid top_k returns the empty sequence rather than an
error; and top_k ≤ 0 fails with InvalidArgument (this check precedes the
empty-index case). -/
theorem search_contract (idx : VectorIndex) (q : List ℚ) (top_k : Int) :
    (top_k ≤ 0 → search idx q top_k = Except.error WErr.InvalidArgument) ∧
      (0 < top_k → idx.chunks = [] → search idx q top_k = Except.ok []) ∧
      (∀ out, search idx q top_k = Except.ok out →
        out.length ≤ top_k.toNat ∧ List.Sorted scoredBefore out) := by
  refine ⟨?_, ?_, ?_⟩
  · intro h
    simp [search, h]
  · intro h he
    simp [search, not_le.mpr h, he]
  · intro out hout
    by_cases h : top_k ≤ 0
    · simp [search, h] at hout
    · simp only [search, if_neg h, Except.ok.injEq] at hout
      subst hout
      constructor
      · rw [List.length_take]
        exact min_le_left _ _
      · exact List.Pairwise.sublist (List.take_sublist _ _)
          (List.sorted_insertionSort scoredBefore _)

/-- Witness for C4 at a concrete index, query and top_k values. -/
theorem search_contract_witness :
    search sampleIndex [1] 0 = Except.error WErr.InvalidArgument ∧
      search { chunks := [], dimension := 1 } [1] 3 = Except.ok [] ∧
      (sampleSearchOut.length ≤ (2 : Int).toNat ∧ List.Sorted scoredBefore sampleSearchOut) :=
  ⟨(search_contract sampleIndex [1] 0).1 (by decide),
   (search_contract { chunks := [], dimension := 1 } [1] 3).2.1 (by decide) rfl,
   (search_contract sampleIndex [1] 2).2.2 sampleSearchOut (by
     norm_num [search, sampleIndex, sampleChunk, dot, List.insertionSort,
       List.orderedInsert, scoredBefore, sampleSearchOut, Int.toNat, List.take])⟩

end DWOS

namespace DWOS

/-- The status boost term of the queue score lies between 0 and 2. -/
theorem statusBoost_bounds (s : String) : 0 ≤ statusBoost s ∧ statusBoost s ≤ 2 := by
  unfold statusBoost
  split <;> norm_num

/-- Every entry produced by rank carries the score of its own ticket. -/
theorem rank_entry_score (now : ℕ) (tickets : List Ticket) (wos : List WorkOrder) :
    ∀ e ∈ rank now tickets wos, e.score = ticketScore now e.ticket := by
  intro e he
  have hmem : e ∈ (tickets.filter fun t => !(isCompletedFor wos t.issue_id)).map
      (fun t => QEntry.mk t (ageOf now t) (ticketScore now t)) :=
    (List.perm_insertionSort entryBefore _).mem_iff.mp he
  obtain ⟨t, _, rfl⟩ := List.mem_map.mp hmem
  rfl

/-- A Critical-priority ticket always outscores a Low-priority ticket: the
priority weight dominates the capped age and status terms. -/
theorem critical_score_gt_low (now : ℕ) (t u : Ticket)
    (ht : t.priority = some "Critical") (hu : u.priority = some "Low") :
    ticketScore now u < ticketScore now t := by
  have hpt : priorityLevel (t.priority.getD "") = 5 := by rw [ht]; decide
  have hpu : priorityLevel (u.priority.getD "") = 2 := by rw [hu]; decide
  have hbt := statusBoost_bounds t.status
  have hbu := statusBoost_bounds u.status
  have hat : min (ageOf now t) ageCap ≤ 5 := by
    simp [ageCap] at *
  have hau : min (ageOf now u) ageCap ≤ 5 := by
    simp [ageCap] at *
  unfold ticketScore
  rw [hpt, hpu]
  omega

/-- C5: the ranked queue is sorted by the queue order (descending score, ties
by age older-first then issue_id); any Critical ticket scores strictly above
any Low ticket regardless of their ages; hence in the ranked output a Critical
entry can only appear before a Low entry, never after it. -/
theorem rank_ordering (now : ℕ) (tickets : List Ticket) (wos : List WorkOrder) :
    List.Sorted entryBefore (rank now tickets wos) ∧
      (∀ t u : Ticket, t.priority = some "Critical" → u.priority = some "Low" →
        ticketScore now u < ticketScore now t) ∧
      (∀ (i j : ℕ) (hi : i < (rank now tickets wos).length)
          (hj : j < (rank now tickets wos).length),
        ((rank now tickets wos).get ⟨i, hi⟩).ticket.priority = some "Low" →
        ((rank now tickets wos).get ⟨j, hj⟩).ticket.priority = some "Critical" →
        j < i) := by
  have hs : List.Sorted entryBefore (rank now tickets wos) :=
    List.sorted_insertionSort entryBefore _
  refine ⟨hs, fun t u ht hu => critical_score_gt_low now t u ht hu, ?_⟩
  intro i j hi hj hLow hCrit
  by_contra hji
  push_neg at hji
  have hgt : ((rank now tickets wos).get ⟨i, hi⟩).score <
      ((rank now tickets wos).get ⟨j, hj⟩).score := by
    rw [rank_entry_score now tickets wos _ (List.get_mem _ _ _),
      rank_entry_score now tickets wos _ (List.get_mem _ _ _)]
    exact critical_score_gt_low now _ _ hCrit hLow
  rcases Nat.lt_or_ge i j with hij | hij
  · have hp := List.pairwise_iff_get.mp hs ⟨i, hi⟩ ⟨j, hj⟩ hij
    rcases hp with hlt | ⟨heq, _⟩
    · exact absurd hgt (not_lt.mpr (le_of_lt hlt))
    · rw [heq] at hgt
      exact lt_irrefl _ hgt
  · have hij' : i = j := le_antisymm hji hij
    subst hij'
    rw [hLow] at hCrit
    simp at hCrit

/-- Witness for C5: with a Low-priority old ticket and a Critical-priority
fresh ticket, the Critical ticket outscores and is ranked first. -/
theorem rank_ordering_witness :
    ticketScore 100 lowTicket < ticketScore 100 critTicket ∧ (0 : ℕ) < 1 :=
  ⟨(rank_ordering 100 [lowTicket, critTicket] []).2.1 critTicket lowTicket rfl rfl,
   by
     refine (rank_ordering 100 [lowTicket, critTicket] []).2.2 1 0 ?_ ?_ ?_ ?_
     · decide
     · decide
     · decide
     · decide⟩

end DWOS

namespace DWOS

/-- C8 counterexample: on a failed response whose JSON body carries a present
but empty detail field, the thrown message is the HTTP status text, not the
detail field, so the message is not "the detail field when present". -/
theorem handleResponse_counterexample :
    handleResponse { ok := false, statusText := "Not Found", json := some { detail := some "" } } =
        FetchOutcome.thrown "Not Found" ∧
      errDetail { ok := false, statusText := "Not Found", json := some { detail := some "" } } =
        some "" ∧
      ("Not Found" : String) ≠ "" :=
  ⟨rfl, rfl, by decide⟩

/-- C8 amended: handleResponse returns the parsed JSON body when the response
is ok, and otherwise throws an error whose message is the body's detail field
when that field is present and non-empty, else the HTTP status text when
non-empty, else "Unknown error"; a failed response is never turned into a
success value. -/
theorem handleResponse_contract (r : HttpResponse) :
    (r.ok = true → ∀ b, r.json = some b → handleResponse r = FetchOutcome.success b) ∧
      (r.ok = false → ∀ d, errDetail r = some d → d ≠ "" →
        handleResponse r = FetchOutcome.thrown d) ∧
      (r.ok = false → jsFalsy (errDetail r) = true → r.statusText ≠ "" →
        handleResponse r = FetchOutcome.thrown r.statusText) ∧
      (r.ok = false → jsFalsy (errDetail r) = true → r.statusText = "" →
        handleResponse r = FetchOutcome.thrown "Unknown error") ∧
      (r.ok = false → ∀ b, handleResponse r ≠ FetchOutcome.success b) := by
  refine ⟨?_, ?_, ?_, ?_, ?_⟩
  · intro hok b hb
    simp [handleResponse, hok, hb]
  · intro hok d hd hne
    unfold errDetail at hd
    simp [handleResponse, hok, hd, jsOr, hne]
  · intro hok hf hst
    unfold errDetail at hf
    cases hd : (r.json.getD { detail := none }).detail with
    | none => simp [handleResponse, hok, hd, jsOr, hst]
    | some m =>
      rw [hd] at hf
      simp [jsFalsy] at hf
      simp [handleResponse, hok, hd, jsOr, hf, hst]
  · intro hok hf hst
    unfold errDetail at hf
    cases hd : (r.json.getD { detail := none }).detail with
    | none => simp [handleResponse, hok, hd, jsOr, hst]
    | some m =>
      rw [hd] at hf
      simp [jsFalsy] at hf
      simp [handleResponse, hok, hd, jsOr, hf, hst]
  · intro hok b
    simp [handleResponse, hok]

/-- Witness for C8 at four concrete responses, one per message source. -/
theorem handleResponse_contract_witness :
    handleResponse { ok := true, statusText := "OK", json := some { detail := none } } =
        FetchOutcome.success { detail := none } ∧
      handleResponse { ok := false, statusText := "Bad Gateway", json := some { detail := some "upstream failed" } } =
        FetchOutcome.thrown "upstream failed" ∧
      handleResponse { ok := false, statusText := "Service Unavailable", json := none } =
        FetchOutcome.thrown "Service Unavailable" ∧
      handleResponse { ok := false, statusText := "", json := none } =
        FetchOutcome.thrown "Unknown error" :=
  ⟨(handleResponse_contract _).1 rfl _ rfl,
   (handleResponse_contract _).2.1 rfl "upstream failed" rfl (by decide),
   (handleResponse_contract _).2.2.1 rfl rfl (by decide),
   (handleResponse_contract _).2.2.2.1 rfl rfl rfl⟩

end DWOS

namespace DWOS

/-- C9 counterexample: a work-order object whose title is present but equal to
the empty string is rendered with the default "Work Order" title, so the first
output line is not "Title: " followed by the (empty) title. -/
theorem formatWorkOrder_counterexample :
    formatWorkOrderToText (JsInput.objVal
        { title := some "", impact := none, steps := [], materials := [],
          validation := [], jira_refs := [] }) = "Title: Work Order" ∧
      ("Title: Work Order" : String) ≠ "Title: " :=
  ⟨rfl, by decide⟩

/-- C9 amended: formatWorkOrderToText is total; a non-object input yields
itself when it is a string and the placeholder text otherwise; for an object,
the first line is "Title: " followed by the title, which defaults to
"Work Order" exactly when the title is absent or empty (falsy); and each step
appears in original order as a line numbered consecutively from 1. -/
theorem formatWorkOrder_contract (s : String) (w : WorkJson) (i : ℕ)
    (hi : i < w.steps.length) :
    formatWorkOrderToText (JsInput.strVal s) = s ∧
      formatWorkOrderToText JsInput.nullish = "(No work order content)" ∧
      formatWorkOrderToText JsInput.otherVal = "(No work order content)" ∧
      (formatLines w).head? = some ("Title: " ++ jsOr w.title "Work Order") ∧
      (w.title = none ∨ w.title = some "" → jsOr w.title "Work Order" = "Work Order") ∧
      (∀ t, w.title = some t → t ≠ "" → jsOr w.title "Work Order" = t) ∧
      (toString (i + 1) ++ ". " ++ w.steps.get ⟨i, hi⟩) ∈ formatLines w ∧
      formatWorkOrderToText (JsInput.objVal w) = String.intercalate "\n" (formatLines w) := by
  refine ⟨rfl, rfl, rfl, rfl, ?_, ?_, ?_, rfl⟩
  · intro h
    rcases h with h | h <;> simp [jsOr, h]
  · intro t ht hne
    simp [jsOr, ht, hne]
  · have hmem : (toString (i + 1) ++ ". " ++ w.steps.get ⟨i, hi⟩) ∈
        w.steps.enum.map (fun p => toString (p.1 + 1) ++ ". " ++ p.2) := by
      refine List.mem_map.mpr ⟨(i, w.steps.get ⟨i, hi⟩), ?_, rfl⟩
      have hg : w.steps.enum[i]? = some (i, w.steps[i]) := by
        simp [List.getElem?_enum, List.getElem?_eq_getElem hi]
      obtain ⟨h', he⟩ := List.getElem?_eq_some.mp hg
      rw [show w.steps.get ⟨i, hi⟩ = w.steps[i] from rfl, ← he]
      exact List.getElem_mem _
    have hne : w.steps.isEmpty = false := by
      have : w.steps ≠ [] := List.ne_nil_of_length_pos (by omega)
      simpa [List.isEmpty_iff] using this
    simp only [formatLines, hne, Bool.false_eq_true, if_false, List.mem_cons,
      List.mem_append]
    tauto

end DWOS

namespace DWOS

/-- Witness for C9 at a concrete string input and work-order object. -/
theorem formatWorkOrder_contract_witness :
    formatWorkOrderToText (JsInput.strVal "free text") = "free text" ∧
      (formatLines sampleJson).head? = some ("Title: " ++ jsOr sampleJson.title "Work Order") ∧
      ("2. swap kit" : String) ∈ formatLines sampleJson :=
  ⟨(formatWorkOrder_contract "free text" sampleJson 1 (by decide)).1,
   (formatWorkOrder_contract "free text" sampleJson 1 (by decide)).2.2.2.1,
   (formatWorkOrder_contract "free text" sampleJson 1 (by decide)).2.2.2.2.2.2.1⟩

end DWOS

namespace DWOS

/-- Uppercasing preserves emptiness: an uppercased string is empty only if the
original was. -/
theorem toUpper_eq_empty (s : String) (h : s.toUpper = "") : s = "" := by
  rw [String.toUpper, String.map_eq] at h
  have hd : s.data.map Char.toUpper = [] := congrArg String.data h
  exact String.ext (by simpa using hd)

/-- C10: extractLocationDetails returns the empty object for every input that
is not a non-empty string; and whenever the result carries a freeform
location, none of the rack, server, node or gpu matchers matched, so the
structured fields are all absent. The matcher hypotheses record that the
source regular expressions never produce an empty capture group (each group
requires at least one character). -/
theorem extractLocation_contract
    (rackRe serverRe nodeRe gpuRe locRe : String → Option String)
    (hrack : ∀ t m, rackRe t = some m → m ≠ "")
    (hserver : ∀ t m, serverRe t = some m → m ≠ "")
    (hnode : ∀ t m, nodeRe t = some m → m ≠ "")
    (hgpu : ∀ t m, gpuRe t = some m → m ≠ "")
    (w : WorkJson) (s : String) :
    extractLocationDetails rackRe serverRe nodeRe gpuRe locRe JsInput.nullish = emptyLocation ∧
      extractLocationDetails rackRe serverRe nodeRe gpuRe locRe JsInput.otherVal = emptyLocation ∧
      extractLocationDetails rackRe serverRe nodeRe gpuRe locRe (JsInput.objVal w) = emptyLocation ∧
      extractLocationDetails rackRe serverRe nodeRe gpuRe locRe (JsInput.strVal "") = emptyLocation ∧
      (∀ d, (extractLocationDetails rackRe serverRe nodeRe gpuRe locRe (JsInput.strVal s)).freeform = some d →
        (extractLocationDetails rackRe serverRe nodeRe gpuRe locRe (JsInput.strVal s)).rack = none ∧
          (extractLocationDetails rackRe serverRe nodeRe gpuRe locRe (JsInput.strVal s)).server = none ∧
          (extractLocationDetails rackRe serverRe nodeRe gpuRe locRe (JsInput.strVal s)).node = none ∧
          (extractLocationDetails rackRe serverRe nodeRe gpuRe locRe (JsInput.strVal s)).gpu = none) := by
  refine ⟨rfl, rfl, rfl, rfl, ?_⟩
  intro d hd
  by_cases hs0 : s = ""
  · rw [hs0] at hd
    simp [extractLocationDetails, emptyLocation] at hd
  · simp only [extractLocationDetails, if_neg hs0] at hd ⊢
    rcases hloc : locRe s.toLower with _ | l
    · rw [hloc] at hd
      simp at hd
    · rw [hloc] at hd
      simp only at hd
      split at hd
      next hcond =>
        simp only [Bool.and_eq_true] at hcond
        obtain ⟨⟨⟨hr, hv⟩, hn⟩, hg⟩ := hcond
        refine ⟨?_, ?_, ?_, ?_⟩
        · cases hrm : rackRe s.toLower with
          | none => simp [hrm]
          | some m =>
            rw [hrm] at hr
            simp [jsFalsy] at hr
            exact absurd (toUpper_eq_empty m hr) (hrack _ _ hrm)
        · cases hvm : serverRe s.toLower with
          | none => rfl
          | some m =>
            rw [hvm] at hv
            simp [jsFalsy] at hv
            exact absurd hv (hserver _ _ hvm)
        · cases hnm : nodeRe s.toLower with
          | none => rfl
          | some m =>
            rw [hnm] at hn
            simp [jsFalsy] at hn
            exact absurd hn (hnode _ _ hnm)
        · cases hgm : gpuRe s.toLower with
          | none => rfl
          | some m =>
            rw [hgm] at hg
            simp [jsFalsy] at hg
            exact absurd hg (hgpu _ _ hgm)
      next hcond =>
        simp at hd

end DWOS

namespace DWOS

/-- Witness for C10 at concrete matchers: none of the structured patterns
matches, the explicit location label does, and the freeform fallback carries
the trimmed capture while all structured fields stay absent. -/
theorem extractLocation_contract_witness :
    extractLocationDetails reNone reNone reNone reNone locSample JsInput.nullish = emptyLocation ∧
      ((extractLocationDetails reNone reNone reNone reNone locSample
            (JsInput.strVal "location: bay 4")).rack = none ∧
        (extractLocationDetails reNone reNone reNone reNone locSample
            (JsInput.strVal "location: bay 4")).server = none ∧
        (extractLocationDetails reNone reNone reNone reNone locSample
            (JsInput.strVal "location: bay 4")).node = none ∧
        (extractLocationDetails reNone reNone reNone reNone locSample
            (JsInput.strVal "location: bay 4")).gpu = none) ∧
      (extractLocationDetails reNone reNone reNone reNone locSample
          (JsInput.strVal "location: bay 4")).freeform = some (" bay 4 ".trim) := by
  have hre : ∀ t m, reNone t = some m → m ≠ "" := by
    intro t m h
    simp [reNone] at h
  have hlow : ("location: bay 4" : String).toLower = "location: bay 4" := by
    rw [String.toLower, String.map_eq]
    exact String.ext (by decide)
  have hfree : (extractLocationDetails reNone reNone reNone reNone locSample
      (JsInput.strVal "location: bay 4")).freeform = some (" bay 4 ".trim) := by
    simp [extractLocationDetails, hlow, locSample, reNone, jsFalsy]
  exact ⟨(extractLocation_contract reNone reNone reNone reNone locSample
      hre hre hre hre sampleJson "x").1,
    (extractLocation_contract reNone reNone reNone reNone locSample
      hre hre hre hre sampleJson "location: bay 4").2.2.2.2 (" bay 4 ".trim) hfree,
    hfree⟩

end DWOS
